import Mathlib

/-
Formal model of the decision-and-streaming chat engine implemented in
backend/api/chat.py (functions get_chat_history, stream_generator, chat_stream,
get_history) of the ai-chatbot repository.

Conventions of the embedding:
* Python floats carrying similarity scores are modelled as rationals (ℚ).
* Python strings are modelled as Lean String, or as List Char where the code
  slices by code point (title truncation, fragment decomposition).
* Database rows are modelled as lists in ascending created_at order, since
  created_at is an auto-now-add timestamp assigned at insertion.
* try/except blocks are modelled by explicit outcome data (an exception is a
  value that the modelled control flow consumes exactly where the code's
  except clause catches it).
-/

/-- Response strategy selected for one turn (`selected_mode` in chat.py). -/
inductive Mode
  | rag
  | tool
  | chat
deriving DecidableEq, Repr

/-- Classification of a text-search hit: `noMatch` when `keyword_match` is
false, `exact` when the full-query ILIKE hit rows, `fuzzy` when only the
fragment fallback hit rows. -/
inductive MatchKind
  | noMatch
  | exact
  | fuzzy
deriving DecidableEq, Repr

/-- `RAG_THRESHOLD = 0.5` (chat.py line 211). -/
def RAG_THRESHOLD : ℚ := 1/2

/-- `TOOL_THRESHOLD = 0.4` (chat.py line 210). -/
def TOOL_THRESHOLD : ℚ := 2/5

/-- The boolean `keyword_match` flag, true exactly when the text search found
rows, i.e. when the match kind is not `noMatch`. -/
def keywordMatch : MatchKind → Bool
  | MatchKind.noMatch => false
  | MatchKind.exact => true
  | MatchKind.fuzzy => true

/-- `rag_score = max_score if max_score >= RAG_THRESHOLD or (keyword_match and
max_score >= 0.3) else 0` (chat.py line 215). -/
def rag_score (max_score : ℚ) (keyword_match : Bool) : ℚ :=
  if RAG_THRESHOLD ≤ max_score ∨ (keyword_match = true ∧ 3/10 ≤ max_score) then
    max_score
  else 0

/-- `tool_score = tool_match_score if tool_match_score >= TOOL_THRESHOLD else 0`
(chat.py line 216). -/
def tool_score (tool_match_score : ℚ) : ℚ :=
  if TOOL_THRESHOLD ≤ tool_match_score then tool_match_score else 0

/-- The router conditional (chat.py lines 218-223). -/
def routeDecision (rs ts : ℚ) : Mode :=
  if 0 < rs ∧ ts ≤ rs then Mode.rag
  else if 0 < ts ∧ rs < ts then Mode.tool
  else Mode.chat

/-- Full mode selection from the raw vector score, the text-match kind and the
raw tool similarity (chat.py lines 209-223). -/
def selectMode (max_score : ℚ) (mk : MatchKind) (tool_match_score : ℚ) : Mode :=
  routeDecision (rag_score max_score (keywordMatch mk)) (tool_score tool_match_score)

/-- C1: for scores in [0,1] and any match kind, the effective scores are
computed exactly as the spec states (retrieval passes at ≥ 0.5, or at ≥ 0.3
with a text match; tool passes at ≥ 0.4), RAG is selected iff the effective
retrieval score is positive and ≥ the effective tool score, TOOL iff the
effective tool score is positive and strictly greater, CHAT otherwise; equal
nonzero effective scores select RAG. -/
theorem C1_mode_router (r t : ℚ) (mk : MatchKind)
    (hr0 : 0 ≤ r) (hr1 : r ≤ 1) (ht0 : 0 ≤ t) (ht1 : t ≤ 1) :
    (rag_score r (keywordMatch mk) =
      if (1/2 : ℚ) ≤ r ∨ (mk ≠ MatchKind.noMatch ∧ (3/10 : ℚ) ≤ r) then r else 0)
    ∧ (tool_score t = if (2/5 : ℚ) ≤ t then t else 0)
    ∧ (selectMode r mk t = Mode.rag ↔
        0 < rag_score r (keywordMatch mk) ∧ tool_score t ≤ rag_score r (keywordMatch mk))
    ∧ (selectMode r mk t = Mode.tool ↔
        0 < tool_score t ∧ rag_score r (keywordMatch mk) < tool_score t)
    ∧ (selectMode r mk t = Mode.chat ↔
        ¬(0 < rag_score r (keywordMatch mk) ∧ tool_score t ≤ rag_score r (keywordMatch mk)) ∧
        ¬(0 < tool_score t ∧ rag_score r (keywordMatch mk) < tool_score t))
    ∧ (0 < rag_score r (keywordMatch mk) →
        rag_score r (keywordMatch mk) = tool_score t → selectMode r mk t = Mode.rag) := by
  have hkw : (keywordMatch mk = true) ↔ mk ≠ MatchKind.noMatch := by
    cases mk <;> simp [keywordMatch]
  refine ⟨?_, ?_, ?_, ?_, ?_, ?_⟩
  · unfold rag_score RAG_THRESHOLD
    by_cases h : (1/2 : ℚ) ≤ r ∨ (mk ≠ MatchKind.noMatch ∧ (3/10 : ℚ) ≤ r)
    · rw [if_pos h, if_pos]
      rcases h with h | ⟨h1, h2⟩
      · exact Or.inl h
      · exact Or.inr ⟨hkw.mpr h1, h2⟩
    · rw [if_neg h, if_neg]
      intro hc
      exact h (hc.imp id (fun ⟨h1, h2⟩ => ⟨hkw.mp h1, h2⟩))
  · rfl
  · unfold selectMode routeDecision
    by_cases h : 0 < rag_score r (keywordMatch mk) ∧
        tool_score t ≤ rag_score r (keywordMatch mk)
    · simp [h]
    · rw [if_neg h]
      constructor
      · intro hc
        by_cases h2 : 0 < tool_score t ∧ rag_score r (keywordMatch mk) < tool_score t <;>
          simp [h2] at hc
      · intro hc
        exact absurd hc h
  · unfold selectMode routeDecision
    by_cases h : 0 < rag_score r (keywordMatch mk) ∧
        tool_score t ≤ rag_score r (keywordMatch mk)
    · rw [if_pos h]
      constructor
      · intro hc
        exact absurd hc.symm (by simp)
      · intro hc
        exact absurd h.2 (not_le.mpr hc.2)
    · rw [if_neg h]
      by_cases h2 : 0 < tool_score t ∧ rag_score r (keywordMatch mk) < tool_score t <;>
        simp [h2]
  · unfold selectMode routeDecision
    by_cases h : 0 < rag_score r (keywordMatch mk) ∧
        tool_score t ≤ rag_score r (keywordMatch mk)
    · simp [h]
    · rw [if_neg h]
      by_cases h2 : 0 < tool_score t ∧ rag_score r (keywordMatch mk) < tool_score t <;>
        simp [h, h2]
  · intro hpos heq
    unfold selectMode routeDecision
    rw [if_pos ⟨hpos, le_of_eq heq.symm⟩]

/-- Witness for C1 at r = 0.6, t = 0.6, match kind none: a tie of nonzero
effective scores selects RAG. -/
theorem C1_mode_router_witness :
    selectMode (3/5) MatchKind.noMatch (3/5) = Mode.rag := by
  have h := C1_mode_router (3/5) (3/5) MatchKind.noMatch
    (by norm_num) (by norm_num) (by norm_num) (by norm_num)
  refine h.2.2.2.2.2 ?_ ?_
  · unfold rag_score RAG_THRESHOLD
    norm_num
  · unfold rag_score tool_score RAG_THRESHOLD TOOL_THRESHOLD
    norm_num

/-- C4 counterexample: match kind `exact`, retrieval score 0.35 ∈ [0.3, 0.5),
tool score 0.9: the code selects TOOL, not RAG, so the claim's "for every
value of tool_score" fails. -/
theorem C4_counterexample :
    ((3:ℚ)/10 ≤ 35/100 ∧ (35:ℚ)/100 < 1/2) ∧
    selectMode (35/100) MatchKind.exact (9/10) = Mode.tool ∧
    selectMode (35/100) MatchKind.exact (9/10) ≠ Mode.rag := by
  have hsel : selectMode (35/100) MatchKind.exact (9/10) = Mode.tool := by
    unfold selectMode routeDecision rag_score tool_score RAG_THRESHOLD TOOL_THRESHOLD keywordMatch
    norm_num
  refine ⟨⟨by norm_num, by norm_num⟩, hsel, ?_⟩
  rw [hsel]
  simp

/-- C4 (amended): with a text match (exact or fuzzy) and retrieval score in
[0.3, 0.5), the mode is RAG for every tool score that is either below the
tool threshold 0.4 or does not exceed the retrieval score; a passing tool
score strictly above the retrieval score selects TOOL instead. -/
theorem C4_lowered_threshold (r t : ℚ) (mk : MatchKind) (hmk : mk ≠ MatchKind.noMatch)
    (h3 : (3/10 : ℚ) ≤ r) (h5 : r < 1/2) (ht : t < 2/5 ∨ t ≤ r) :
    selectMode r mk t = Mode.rag := by
  have hkw : keywordMatch mk = true := by cases mk <;> simp_all [keywordMatch]
  have hrag : rag_score r (keywordMatch mk) = r := by
    unfold rag_score RAG_THRESHOLD
    rw [if_pos (Or.inr ⟨hkw, h3⟩)]
  have hrpos : 0 < r := lt_of_lt_of_le (by norm_num) h3
  unfold selectMode routeDecision
  rcases ht with ht | ht
  · have htool : tool_score t = 0 := by
      unfold tool_score TOOL_THRESHOLD
      rw [if_neg (not_le.mpr ht)]
    rw [hrag, htool, if_pos ⟨hrpos, le_of_lt hrpos⟩]
  · have htool : tool_score t ≤ r := by
      unfold tool_score TOOL_THRESHOLD
      by_cases h : (2/5 : ℚ) ≤ t
      · rw [if_pos h]; exact ht
      · rw [if_neg h]; exact le_of_lt hrpos
    rw [hrag, if_pos ⟨hrpos, htool⟩]

/-- Witness for the amended C4 at r = 0.35, match kind fuzzy, t = 0.3
(below the tool threshold): RAG is selected. -/
theorem C4_lowered_threshold_witness :
    selectMode (35/100) MatchKind.fuzzy (3/10) = Mode.rag :=
  C4_lowered_threshold (35/100) (3/10) MatchKind.fuzzy (by simp)
    (by norm_num) (by norm_num) (Or.inl (by norm_num))

/-- Python `str.strip()`: remove leading and trailing whitespace. -/
def pyStrip (s : List Char) : List Char :=
  ((s.dropWhile Char.isWhitespace).reverse.dropWhile Char.isWhitespace).reverse

/-- The session title update on turn completion (chat.py lines 410-412):
only a session still titled "New Chat" is retitled, to the stripped user
message truncated to its first 20 characters, with "..." appended when the
raw message is longer than 20 characters. -/
def updateTitle (title : List Char) (current_message : List Char) : List Char :=
  if title = "New Chat".toList then
    (pyStrip current_message).take 20 ++
      (if 20 < current_message.length then "...".toList else [])
  else title

/-- C6 counterexample: the spec's example output "Explain quantum entangl..."
is wrong; `[:20]` keeps "Explain quantum enta", so the code produces
"Explain quantum enta...". -/
theorem C6_counterexample :
    updateTitle "New Chat".toList
        "Explain quantum entanglement in simple terms please".toList
      ≠ "Explain quantum entangl...".toList ∧
    updateTitle "New Chat".toList
        "Explain quantum entanglement in simple terms please".toList
      = "Explain quantum enta...".toList := by
  constructor
  · decide
  · decide

/-- C6 (amended): a session titled with the sentinel "New Chat" is retitled to
the stripped user message truncated to 20 characters, with an appended
ellipsis when the raw message exceeds 20 characters (the example message
yields "Explain quantum enta..."); a session whose title is not the sentinel
keeps its title unchanged. -/
theorem C6_title_rule (title msg : List Char) :
    (title = "New Chat".toList → 20 < msg.length →
      updateTitle title msg = (pyStrip msg).take 20 ++ "...".toList)
    ∧ (title = "New Chat".toList → msg.length ≤ 20 →
      updateTitle title msg = pyStrip msg)
    ∧ (title ≠ "New Chat".toList → updateTitle title msg = title) := by
  have hsub : (pyStrip msg).length ≤ msg.length := by
    unfold pyStrip
    calc ((msg.dropWhile Char.isWhitespace).reverse.dropWhile Char.isWhitespace).reverse.length
        = ((msg.dropWhile Char.isWhitespace).reverse.dropWhile Char.isWhitespace).length := by
          rw [List.length_reverse]
      _ ≤ (msg.dropWhile Char.isWhitespace).reverse.length :=
          (List.dropWhile_sublist _).length_le
      _ = (msg.dropWhile Char.isWhitespace).length := by rw [List.length_reverse]
      _ ≤ msg.length := (List.dropWhile_sublist _).length_le
  refine ⟨?_, ?_, ?_⟩
  · intro h hlen
    unfold updateTitle
    rw [if_pos h, if_pos hlen]
  · intro h hlen
    unfold updateTitle
    rw [if_pos h, if_neg (by omega)]
    rw [List.take_of_length_le (by omega), List.append_nil]
  · intro h
    unfold updateTitle
    rw [if_neg h]

/-- Witness for the amended C6: the corrected example title for the long
message, and an unchanged title for a non-sentinel session. -/
theorem C6_title_rule_witness :
    updateTitle "New Chat".toList
        "Explain quantum entanglement in simple terms please".toList
      = "Explain quantum enta...".toList ∧
    updateTitle "Weather".toList "hello".toList = "Weather".toList := by
  constructor
  · have h := (C6_title_rule "New Chat".toList
      "Explain quantum entanglement in simple terms please".toList).1 rfl (by decide)
    rw [h]
    decide
  · exact (C6_title_rule "Weather".toList "hello".toList).2.2 (by decide)

/-- Whether a character is in the CJK range of the fallback's regex
`[一-龥]` (chat.py line 150). -/
def isCJK (c : Char) : Bool :=
  (0x4e00 ≤ c.toNat) && (c.toNat ≤ 0x9fa5)

/-- `chinese_str`: all CJK characters of the query, in order, concatenated
(chat.py lines 150-151; `re.findall` collects them wherever they occur, not
only contiguous runs). -/
def chineseStr (q : List Char) : List Char := q.filter isCJK

/-- The fragment loop `for i in range(0, len(chinese_str) - 1, 2):
keywords.append(chinese_str[i:i+2])` (chat.py lines 154-156): consecutive
2-character slices taken at stride 2 — non-overlapping bigrams, a trailing
odd character is dropped. -/
def strideBigrams : List Char → List (List Char)
  | a :: b :: rest => [a, b] :: strideBigrams rest
  | _ => []

/-- `keywords = list(set(keywords))[:3]` (chat.py line 157), with the
nondeterministic set order modelled as first-occurrence order. -/
def fuzzyKeywords (q : List Char) : List (List Char) :=
  ((strideBigrams (chineseStr q)).dedup).take 3

/-- Does `needle` occur at the head of `hay`? -/
def headMatches : List Char → List Char → Bool
  | [], _ => true
  | _ :: _, [] => false
  | n :: ns, h :: hs => (n == h) && headMatches ns hs

/-- Substring containment over character lists. -/
def containsSub (hay needle : List Char) : Bool :=
  match hay with
  | [] => needle.isEmpty
  | _ :: hs => headMatches needle hay || containsSub hs needle

/-- SQL `text ILIKE '%needle%'`: case-insensitive containment. -/
def ilikeContains (needle hay : List Char) : Bool :=
  containsSub (hay.map Char.toLower) (needle.map Char.toLower)

/-- One row of the `data_document_embeddings` table together with its parsed
`metadata_` fields used by the source-attribution code. -/
structure Row where
  text : List Char
  file_name : Option (List Char)
  title : Option (List Char)
  page_label : Option (List Char)
deriving DecidableEq, Repr

/-- The text-containment search of chat.py lines 131-175: exact full-query
ILIKE first (limit 3); on zero rows, the CJK fragment fallback (limit 3,
conjunctive over all kept fragments), guarded by ≥ 4 CJK characters and
≥ 2 kept fragments; returns the rows found and the resulting match kind. -/
def textSearch (current_message : List Char) (corpus : List Row) : List Row × MatchKind :=
  let query_text := pyStrip current_message
  if query_text ≠ [] ∧ 2 < query_text.length then
    let exactRows := (corpus.filter (fun r => ilikeContains query_text r.text)).take 3
    if exactRows ≠ [] then (exactRows, MatchKind.exact)
    else
      let cs := chineseStr query_text
      if 4 ≤ cs.length then
        let kws := fuzzyKeywords query_text
        if 2 ≤ kws.length then
          let fuzzyRows :=
            (corpus.filter (fun r => kws.all (fun kw => ilikeContains kw r.text))).take 3
          if fuzzyRows ≠ [] then (fuzzyRows, MatchKind.fuzzy)
          else ([], MatchKind.noMatch)
        else ([], MatchKind.noMatch)
      else ([], MatchKind.noMatch)
  else ([], MatchKind.noMatch)

/-- C3's claimed decomposition, following the claim's words: overlapping
2-character fragments of the query's ideographic characters, deduplicated and
capped at 3. Stated only for comparison with the code's `fuzzyKeywords`. -/
def overlapBigrams : List Char → List (List Char)
  | a :: b :: rest => [a, b] :: overlapBigrams (b :: rest)
  | _ => []

/-- The claim-side fragment list: overlapping bigrams, dedup, cap 3. -/
def claimedFuzzyKeywords (q : List Char) : List (List Char) :=
  ((overlapBigrams (chineseStr q)).dedup).take 3

/-- C3 counterexample: for the 4-ideograph query "中文测试" the code's
fallback produces the two non-overlapping fragments 中文, 测试 (stride-2
slices), not the three overlapping fragments 中文, 文测, 测试 the claim
describes. -/
theorem C3_counterexample :
    fuzzyKeywords "中文测试".toList = ["中文".toList, "测试".toList] ∧
    claimedFuzzyKeywords "中文测试".toList =
      ["中文".toList, "文测".toList, "测试".toList] ∧
    fuzzyKeywords "中文测试".toList ≠ claimedFuzzyKeywords "中文测试".toList := by
  refine ⟨by decide, by decide, by decide⟩

/-- The stride-2 bigram loop characterized positionally: fragment i is the
2-character slice starting at index 2*i, and there are ⌊n/2⌋ of them. -/
theorem strideBigrams_eq_slices : ∀ (s : List Char),
    strideBigrams s = (List.range (s.length / 2)).map (fun i => (s.drop (2 * i)).take 2)
  | [] => rfl
  | [c] => by
    show ([] : List (List Char)) =
      (List.range ([c].length / 2)).map (fun i => (([c] : List Char).drop (2 * i)).take 2)
    norm_num
  | a :: b :: rest => by
    have ih := strideBigrams_eq_slices rest
    have hlen : (a :: b :: rest).length / 2 = rest.length / 2 + 1 := by
      simp only [List.length_cons]
      omega
    show [a, b] :: strideBigrams rest =
      (List.range ((a :: b :: rest).length / 2)).map
        (fun i => ((a :: b :: rest).drop (2 * i)).take 2)
    rw [ih, hlen, List.range_succ_eq_map]
    simp only [List.map_cons, List.map_map]
    congr 1

/-- C3 (amended): when the stripped query is longer than 2 characters, the
exact full-query search finds no row, and the query holds at least 4
ideographic characters in total (contiguous or not), the fallback concatenates
all ideographic characters and splits the concatenation into consecutive
non-overlapping 2-character fragments (stride 2, trailing odd character
dropped), deduplicates them, caps them at 3, and matches rows that contain
every kept fragment (limit 3); with fewer than 2 kept fragments the fallback
is skipped and the search reports no match. -/
theorem C3_fuzzy_fallback (current_message : List Char) (corpus : List Row)
    (hq : pyStrip current_message ≠ [] ∧ 2 < (pyStrip current_message).length)
    (hexact : ∀ r ∈ corpus, ilikeContains (pyStrip current_message) r.text = false)
    (hcjk : 4 ≤ (chineseStr (pyStrip current_message)).length) :
    (fuzzyKeywords (pyStrip current_message) =
      (((List.range ((chineseStr (pyStrip current_message)).length / 2)).map
        (fun i => ((chineseStr (pyStrip current_message)).drop (2 * i)).take 2)).dedup).take 3)
    ∧ (2 ≤ (fuzzyKeywords (pyStrip current_message)).length →
        textSearch current_message corpus =
          (let rows := (corpus.filter (fun r =>
              (fuzzyKeywords (pyStrip current_message)).all
                (fun kw => ilikeContains kw r.text))).take 3
           if rows ≠ [] then (rows, MatchKind.fuzzy) else ([], MatchKind.noMatch)))
    ∧ ((fuzzyKeywords (pyStrip current_message)).length < 2 →
        textSearch current_message corpus = ([], MatchKind.noMatch)) := by
  have hfilter : corpus.filter
      (fun r => ilikeContains (pyStrip current_message) r.text) = [] := by
    rw [List.filter_eq_nil_iff]
    intro r hr
    simp [hexact r hr]
  refine ⟨?_, ?_, ?_⟩
  · unfold fuzzyKeywords
    rw [strideBigrams_eq_slices]
  · intro hk
    unfold textSearch
    rw [if_pos hq]
    simp only [hfilter, List.take_nil]
    rw [if_neg (by simp), if_pos hcjk, if_pos hk]
  · intro hk
    unfold textSearch
    rw [if_pos hq]
    simp only [hfilter, List.take_nil]
    rw [if_neg (by simp), if_pos hcjk, if_neg (by omega)]

/-- Witness for the amended C3: the query 中文测试 over a one-row corpus whose
text contains both fragments 中文 and 测试 but not the full query: the
fallback fires and classifies the hit as fuzzy. -/
theorem C3_fuzzy_fallback_witness :
    textSearch "中文测试".toList
        [⟨"这里有中文还有测试内容".toList, some "a.pdf".toList, none, none⟩] =
      ([⟨"这里有中文还有测试内容".toList, some "a.pdf".toList, none, none⟩],
        MatchKind.fuzzy) := by
  have h := C3_fuzzy_fallback "中文测试".toList
    [⟨"这里有中文还有测试内容".toList, some "a.pdf".toList, none, none⟩]
    (by constructor <;> decide)
    (by intro r hr; simp at hr; subst hr; decide)
    (by decide)
  have h2 := h.2.1 (by decide)
  rw [h2]
  decide

/-- A source-attribution record attached to an assistant message: either a
document reference built in the RAG branch, or a tool-invocation reference
built in the TOOL branch. -/
inductive SourceRecord
  | doc (file_name : List Char) (page : Option (List Char))
  | toolUse (name : String) (tool_id : String) (args : String)
deriving DecidableEq, Repr

/-- Python's `a or b` on optional strings: an absent or empty string falls
through to `b` (empty strings are falsy). -/
def pyStrOr (a b : Option (List Char)) : Option (List Char) :=
  match a with
  | some s => if s = [] then b else some s
  | none => b

/-- Python `str.split("/")`: split on every slash, keeping empty pieces. -/
def splitOnSlash : List Char → List (List Char)
  | [] => [[]]
  | c :: cs =>
    if c = '/' then [] :: splitOnSlash cs
    else
      match splitOnSlash cs with
      | [] => [[c]]
      | p :: ps => (c :: p) :: ps

/-- `if "/" in str(file_name): file_name = str(file_name).split("/")[-1]`
(chat.py lines 244 and 254). -/
def stripPath (s : List Char) : List Char :=
  if '/' ∈ s then (splitOnSlash s).getLastD s else s

/-- The document record built from a keyword row's metadata (chat.py lines
241-245): `meta.get("file_name") or meta.get("title") or "未知文件"`, path
stripped, paired with `meta.get("page_label")`. -/
def rowSource (r : Row) : SourceRecord :=
  SourceRecord.doc
    (stripPath ((pyStrOr (pyStrOr r.file_name r.title)
      (some "未知文件".toList)).getD "未知文件".toList))
    r.page_label

/-- Metadata of a vector-retrieved node as used by chat.py lines 251-255. -/
structure NodeMeta where
  file_name : Option (List Char)
  page_label : Option (List Char)
deriving DecidableEq, Repr

/-- The document record built from a retrieved node's metadata (chat.py lines
252-255): `meta.get("file_name") or "未知文件"`, path stripped, paired with
`meta.get("page_label")`. -/
def nodeSource (m : NodeMeta) : SourceRecord :=
  SourceRecord.doc
    (stripPath ((pyStrOr m.file_name (some "未知文件".toList)).getD "未知文件".toList))
    m.page_label

/-- `if source_info not in sources: sources.append(source_info)` (chat.py
lines 246 and 256). -/
def addIfNew (sources : List SourceRecord) (s : SourceRecord) : List SourceRecord :=
  if s ∈ sources then sources else sources ++ [s]

/-- Accumulation of document sources over the keyword rows (chat.py lines
239-246). -/
def addDocSources (rows : List Row) (sources : List SourceRecord) : List SourceRecord :=
  rows.foldl (fun acc r => addIfNew acc (rowSource r)) sources

/-- Accumulation of document sources over the retrieved nodes (chat.py lines
251-256). -/
def addNodeSources (nodes : List NodeMeta) (sources : List SourceRecord) : List SourceRecord :=
  nodes.foldl (fun acc n => addIfNew acc (nodeSource n)) sources

/-- One tool call returned by the generation backend: its tool name and the
string rendering of its keyword arguments. -/
structure ToolCall where
  tool_name : String
  tool_args : String
deriving DecidableEq, Repr

/-- The tool-invocation record of chat.py lines 325-333: the registered server
name looked up in the tool map (defaulting to the tool's own name), the tool
id, and the stringified arguments. -/
def toolSource (toolMap : List (String × String)) (tc : ToolCall) : SourceRecord :=
  SourceRecord.toolUse ((toolMap.lookup tc.tool_name).getD tc.tool_name)
    tc.tool_name tc.tool_args

/-- Accumulation of tool-invocation sources over the backend's tool calls
(chat.py lines 321-333): a plain `sources.append(...)`, with no membership
check. -/
def addToolSources (toolMap : List (String × String)) (calls : List ToolCall)
    (sources : List SourceRecord) : List SourceRecord :=
  calls.foldl (fun acc tc => acc ++ [toolSource toolMap tc]) sources

/-- C5 counterexample: two structurally identical tool calls yield two
structurally equal records in the attached source list — tool-invocation
records are not deduplicated. -/
theorem C5_counterexample :
    addToolSources [] [⟨"get_weather", "city=Beijing"⟩, ⟨"get_weather", "city=Beijing"⟩] [] =
      [SourceRecord.toolUse "get_weather" "get_weather" "city=Beijing",
       SourceRecord.toolUse "get_weather" "get_weather" "city=Beijing"] ∧
    ¬ (addToolSources [] [⟨"get_weather", "city=Beijing"⟩, ⟨"get_weather", "city=Beijing"⟩]
        []).Nodup := by
  constructor
  · rfl
  · decide

/-- `addIfNew` preserves distinctness of the accumulated source list. -/
theorem addIfNew_nodup (sources : List SourceRecord) (s : SourceRecord)
    (h : sources.Nodup) : (addIfNew sources s).Nodup := by
  unfold addIfNew
  by_cases hm : s ∈ sources
  · rw [if_pos hm]
    exact h
  · rw [if_neg hm]
    rw [List.nodup_append]
    exact ⟨h, List.nodup_singleton s, by simpa using hm⟩

/-- Distinctness is preserved by any fold of `addIfNew`. -/
theorem foldl_addIfNew_nodup (f : α → SourceRecord) (xs : List α)
    (sources : List SourceRecord) (h : sources.Nodup) :
    (xs.foldl (fun acc x => addIfNew acc (f x)) sources).Nodup := by
  induction xs generalizing sources with
  | nil => exact h
  | cons x xs ih =>
    exact ih (addIfNew sources (f x)) (addIfNew_nodup sources (f x) h)

/-- A fold of plain appends: the tool-path accumulation attaches every call's
record verbatim. -/
theorem addToolSources_eq_append (toolMap : List (String × String)) :
    ∀ (calls : List ToolCall) (sources : List SourceRecord),
      addToolSources toolMap calls sources = sources ++ calls.map (toolSource toolMap)
  | [], sources => by simp [addToolSources]
  | c :: cs, sources => by
    unfold addToolSources
    simp only [List.foldl_cons, List.map_cons]
    rw [show List.foldl (fun acc tc => acc ++ [toolSource toolMap tc])
          (sources ++ [toolSource toolMap c]) cs =
        addToolSources toolMap cs (sources ++ [toolSource toolMap c]) from rfl,
      addToolSources_eq_append toolMap cs (sources ++ [toolSource toolMap c])]
    simp

/-- C5 (amended): within a turn, document source records — from both the
keyword-row path and the vector-node path — are deduplicated by structural
equality before attachment (starting from a duplicate-free accumulator the
attached list stays duplicate-free, and two passages with identical
{file_name, page} yield exactly one record), but tool-invocation records are
appended verbatim with no deduplication. -/
theorem C5_source_dedup (rows : List Row) (nodes : List NodeMeta)
    (toolMap : List (String × String)) (calls : List ToolCall)
    (sources : List SourceRecord) (h : sources.Nodup) :
    (addDocSources rows sources).Nodup
    ∧ (addNodeSources nodes sources).Nodup
    ∧ (∀ r1 r2 : Row, rowSource r1 = rowSource r2 →
        addDocSources [r1, r2] [] = [rowSource r1])
    ∧ addToolSources toolMap calls sources = sources ++ calls.map (toolSource toolMap) := by
  refine ⟨?_, ?_, ?_, ?_⟩
  · exact foldl_addIfNew_nodup rowSource rows sources h
  · exact foldl_addIfNew_nodup nodeSource nodes sources h
  · intro r1 r2 heq
    unfold addDocSources
    simp only [List.foldl_cons, List.foldl_nil]
    unfold addIfNew
    rw [if_neg (List.not_mem_nil _)]
    simp only [List.nil_append]
    rw [if_pos (by rw [← heq]; exact List.mem_singleton_self _)]
  · exact addToolSources_eq_append toolMap calls sources

/-- Witness for the amended C5: two keyword rows with the same file and page
yield a single document record, while the tool path keeps duplicates. -/
theorem C5_source_dedup_witness :
    addDocSources [⟨"abc".toList, some "docs/a.pdf".toList, none, some "3".toList⟩,
                   ⟨"xyz".toList, some "docs/a.pdf".toList, none, some "3".toList⟩] [] =
      [SourceRecord.doc "a.pdf".toList (some "3".toList)] := by
  have h := (C5_source_dedup [] [] [] [] [] List.nodup_nil).2.2.1
    ⟨"abc".toList, some "docs/a.pdf".toList, none, some "3".toList⟩
    ⟨"xyz".toList, some "docs/a.pdf".toList, none, some "3".toList⟩ rfl
  rw [h]
  decide

/-- The observable outcome of embedding one tool's description and computing
its cosine similarity with the query embedding (chat.py lines 192-199): either
a similarity value, or an exception from the embedding backend. -/
inductive EmbedOutcome
  | ok (sim : ℚ)
  | raised
deriving DecidableEq, Repr

/-- Whether a tool's embedding step succeeds. -/
def embedOk (p : String × EmbedOutcome) : Bool :=
  match p.2 with
  | EmbedOutcome.ok _ => true
  | EmbedOutcome.raised => false

/-- The matching loop over the registered tools (chat.py lines 191-203): the
running maximum and best tool name are updated per tool; an exception from any
tool's embedding propagates to the `except` at line 206, which keeps whatever
was accumulated so far — the remaining tools are never visited. -/
def toolMatchLoop : List (String × EmbedOutcome) → ℚ → Option String → ℚ × Option String
  | [], best, name => (best, name)
  | (n, EmbedOutcome.ok s) :: rest, best, name =>
      if best < s then toolMatchLoop rest s (some n) else toolMatchLoop rest best name
  | (_, EmbedOutcome.raised) :: _, best, name => (best, name)

/-- The full matching step (chat.py lines 182-207): `tool_match_score` starts
at 0 with no matched tool; a failure while embedding the query itself leaves
both untouched. -/
def toolMatch (queryEmbedOk : Bool) (tools : List (String × EmbedOutcome)) :
    ℚ × Option String :=
  if queryEmbedOk then toolMatchLoop tools 0 none else (0, none)

/-- C7's claimed behavior, following the claim's words: a tool whose embedding
fails is skipped and the remaining tools' similarities still enter the running
maximum. Stated only for comparison with the code's `toolMatchLoop`. -/
def claimedToolMatchLoop : List (String × EmbedOutcome) → ℚ → Option String → ℚ × Option String
  | [], best, name => (best, name)
  | (n, EmbedOutcome.ok s) :: rest, best, name =>
      if best < s then claimedToolMatchLoop rest s (some n)
      else claimedToolMatchLoop rest best name
  | (_, EmbedOutcome.raised) :: rest, best, name => claimedToolMatchLoop rest best name

/-- C7 counterexample: tools a (similarity 0.5), b (embedding raises),
c (similarity 0.9). The code stops at b and returns (0.5, a): tool c's
similarity never enters the maximum, and the step's result after the failure
is the partial maximum 0.5, not 0. The claimed per-tool isolation would give
(0.9, c). -/
theorem C7_counterexample :
    toolMatch true
        [("a", EmbedOutcome.ok (1/2)), ("b", EmbedOutcome.raised),
         ("c", EmbedOutcome.ok (9/10))] = (1/2, some "a") ∧
    claimedToolMatchLoop
        [("a", EmbedOutcome.ok (1/2)), ("b", EmbedOutcome.raised),
         ("c", EmbedOutcome.ok (9/10))] 0 none = (9/10, some "c") ∧
    toolMatch true
        [("a", EmbedOutcome.ok (1/2)), ("b", EmbedOutcome.raised),
         ("c", EmbedOutcome.ok (9/10))] ≠
      claimedToolMatchLoop
        [("a", EmbedOutcome.ok (1/2)), ("b", EmbedOutcome.raised),
         ("c", EmbedOutcome.ok (9/10))] 0 none ∧
    (toolMatch true
        [("a", EmbedOutcome.ok (1/2)), ("b", EmbedOutcome.raised),
         ("c", EmbedOutcome.ok (9/10))]).1 ≠ 0 := by
  have h1 : toolMatch true
      [("a", EmbedOutcome.ok (1/2)), ("b", EmbedOutcome.raised),
       ("c", EmbedOutcome.ok (9/10))] = (1/2, some "a") := by
    norm_num [toolMatch, toolMatchLoop]
  have h2 : claimedToolMatchLoop
      [("a", EmbedOutcome.ok (1/2)), ("b", EmbedOutcome.raised),
       ("c", EmbedOutcome.ok (9/10))] 0 none = (9/10, some "c") := by
    norm_num [claimedToolMatchLoop]
  refine ⟨h1, h2, ?_, ?_⟩
  · rw [h1, h2]
    intro hc
    rw [Prod.mk.injEq] at hc
    exact absurd hc.1 (by norm_num)
  · rw [h1]
    norm_num

/-- The loop result depends only on the longest failure-free leading segment
of the tool list. -/
theorem toolMatchLoop_takeWhile :
    ∀ (tools : List (String × EmbedOutcome)) (best : ℚ) (name : Option String),
      toolMatchLoop tools best name = toolMatchLoop (tools.takeWhile embedOk) best name
  | [], _, _ => rfl
  | (n, EmbedOutcome.ok s) :: rest, best, name => by
    show toolMatchLoop ((n, EmbedOutcome.ok s) :: rest) best name =
      toolMatchLoop (((n, EmbedOutcome.ok s) :: rest).takeWhile embedOk) best name
    rw [List.takeWhile_cons]
    simp only [embedOk, if_pos]
    unfold toolMatchLoop
    by_cases h : best < s
    · rw [if_pos h, if_pos h, toolMatchLoop_takeWhile rest s (some n)]
    · rw [if_neg h, if_neg h, toolMatchLoop_takeWhile rest best name]
  | (n, EmbedOutcome.raised) :: rest, best, name => by
    show toolMatchLoop ((n, EmbedOutcome.raised) :: rest) best name =
      toolMatchLoop (((n, EmbedOutcome.raised) :: rest).takeWhile embedOk) best name
    rw [List.takeWhile_cons]
    simp only [embedOk]
    rfl

/-- C7 (amended): a tool embedding failure is caught only by the try/except
around the whole matching step, so it aborts matching of the remaining tools:
the step's result is exactly the result over the failure-free leading segment
of the tool list (tools after the first failure never contribute), and the
tool score degrades to the partial maximum accumulated before the failure —
0 only when the failure precedes every similarity, e.g. when embedding the
query itself fails. -/
theorem C7_tool_matching (tools rest : List (String × EmbedOutcome)) (n : String) :
    (toolMatch true tools = toolMatchLoop (tools.takeWhile embedOk) 0 none)
    ∧ (toolMatch true (tools.takeWhile embedOk ++ (n, EmbedOutcome.raised) :: rest) =
        toolMatch true tools)
    ∧ (toolMatch false tools = (0, none)) := by
  refine ⟨?_, ?_, ?_⟩
  · unfold toolMatch
    rw [if_pos rfl]
    exact toolMatchLoop_takeWhile tools 0 none
  · unfold toolMatch
    rw [if_pos rfl, if_pos rfl]
    rw [toolMatchLoop_takeWhile (tools.takeWhile embedOk ++ (n, EmbedOutcome.raised) :: rest) 0 none]
    rw [toolMatchLoop_takeWhile tools 0 none]
    congr 1
    have hidem : List.takeWhile embedOk (List.takeWhile embedOk tools) =
        List.takeWhile embedOk tools := by
      simp [List.takeWhile_takeWhile]
    rw [List.takeWhile_append, hidem, if_pos rfl]
    have hnil : List.takeWhile embedOk ((n, EmbedOutcome.raised) :: rest) = [] := rfl
    rw [hnil, List.append_nil]
  · rfl

/-- Witness for the amended C7: the concrete failing tool list of the
counterexample evaluates to the failure-free leading segment's result. -/
theorem C7_tool_matching_witness :
    toolMatch true
        [("a", EmbedOutcome.ok (1/2)), ("b", EmbedOutcome.raised),
         ("c", EmbedOutcome.ok (9/10))] =
      toolMatchLoop [("a", EmbedOutcome.ok (1/2))] 0 none := by
  have h := (C7_tool_matching
    [("a", EmbedOutcome.ok (1/2)), ("b", EmbedOutcome.raised),
     ("c", EmbedOutcome.ok (9/10))] [] "b").1
  rw [h]
  have htw : List.takeWhile embedOk
      [("a", EmbedOutcome.ok (1/2)), ("b", EmbedOutcome.raised),
       ("c", EmbedOutcome.ok (9/10))] = [("a", EmbedOutcome.ok (1/2))] := rfl
  rw [htw]

/-- One step of the generation backend's stream as observed by the branch
loops of stream_generator (`for chunk in response_stream`): a delta string, or
an exception raised by the backend mid-stream. -/
inductive GenStep
  | delta (s : String)
  | raised (msg : String)
deriving DecidableEq, Repr

/-- A newline-delimited JSON event yielded by stream_generator: a
`{"text": ...}` event or the single trailing `{"sources": [...]}` event. -/
inductive Event
  | text (s : String)
  | sourcesEvent (srcs : List SourceRecord)
deriving DecidableEq, Repr

/-- The branch streaming loop (chat.py lines 288-291, 357-360, 374-377,
390-393): every nonempty delta is yielded as a text event; an exception ends
the loop and propagates. Returns the yielded events and the exception, if
any. -/
def runGeneration : List GenStep → List Event × Option String
  | [] => ([], none)
  | GenStep.delta s :: rest =>
    if s ≠ "" then (Event.text s :: (runGeneration rest).1, (runGeneration rest).2)
    else runGeneration rest
  | GenStep.raised m :: _ => ([], some m)

/-- How far the swallowed persistence block of chat.py lines 399-413 got
before its own `except: pass` fired: completed, failed before the assistant
message was saved, or failed after the save but before/while updating the
title. -/
inductive PersistOutcome
  | completed
  | failedBeforeSave
  | failedAfterSave
deriving DecidableEq, Repr

/-- The observable result of one execution of the guarded region of
stream_generator (chat.py lines 230-416). -/
structure TurnResult where
  events : List Event
  assistantSaved : Bool
  titleUpdated : Bool
deriving DecidableEq, Repr

/-- The guarded region of stream_generator (chat.py lines 230-416): the
selected branch streams generation deltas; on normal completion the sources
event is emitted if any sources accumulated and the persistence block runs
(its failures swallowed by the inner `except: pass`); an exception escaping
the branch jumps to the outer handler, which yields exactly one final
`Error: <message>` text event and ends the stream — the persistence block is
skipped entirely. -/
def streamTurn (gen : List GenStep) (srcs : List SourceRecord)
    (hasSession : Bool) (titleIsSentinel : Bool) (persist : PersistOutcome) : TurnResult :=
  match (runGeneration gen).2 with
  | some m =>
    { events := (runGeneration gen).1 ++ [Event.text ("Error: " ++ m)]
      assistantSaved := false
      titleUpdated := false }
  | none =>
    let evs := (runGeneration gen).1 ++ (if srcs ≠ [] then [Event.sourcesEvent srcs] else [])
    if hasSession then
      match persist with
      | PersistOutcome.completed =>
        { events := evs, assistantSaved := true, titleUpdated := titleIsSentinel }
      | PersistOutcome.failedBeforeSave =>
        { events := evs, assistantSaved := false, titleUpdated := false }
      | PersistOutcome.failedAfterSave =>
        { events := evs, assistantSaved := true, titleUpdated := false }
    else { events := evs, assistantSaved := false, titleUpdated := false }

/-- C2 counterexample: a turn whose generation completes normally with zero
deltas and no accumulated sources emits zero events — the stream does not
always terminate with at least one event. -/
theorem C2_counterexample :
    (streamTurn [] [] false false PersistOutcome.completed).events = [] ∧
    ¬ 1 ≤ (streamTurn [] [] false false PersistOutcome.completed).events.length := by
  constructor
  · rfl
  · decide

/-- Every event emitted by a branch streaming loop is a nonempty text event. -/
theorem runGeneration_events_text : ∀ (gen : List GenStep),
    ∀ e ∈ (runGeneration gen).1, ∃ s, e = Event.text s ∧ s ≠ ""
  | [] => by intro e he; cases he
  | GenStep.delta s :: rest => by
    intro e he
    unfold runGeneration at he
    by_cases hs : s ≠ ""
    · rw [if_pos hs] at he
      rcases List.mem_cons.mp he with he1 | he1
      · exact ⟨s, he1, hs⟩
      · exact runGeneration_events_text rest e he1
    · rw [if_neg hs] at he
      exact runGeneration_events_text rest e he
  | GenStep.raised m :: rest => by intro e he; cases he

/-- C2 (amended): the stream may be empty when generation succeeds with no
output, but it never raises past the engine boundary: whenever the backend
raises after zero or more deltas, the emitted stream is exactly the nonempty
text events of those deltas followed by one final `Error: <message>` text
event, and the stream then ends (in particular such a stream has at least one
event). -/
theorem C2_stream_termination (gen : List GenStep) (srcs : List SourceRecord)
    (hasSession titleIsSentinel : Bool) (persist : PersistOutcome) (m : String)
    (hexc : (runGeneration gen).2 = some m) :
    (streamTurn gen srcs hasSession titleIsSentinel persist).events =
      (runGeneration gen).1 ++ [Event.text ("Error: " ++ m)]
    ∧ (∀ e ∈ (runGeneration gen).1, ∃ s, e = Event.text s ∧ s ≠ "")
    ∧ 1 ≤ (streamTurn gen srcs hasSession titleIsSentinel persist).events.length
    ∧ (streamTurn gen srcs hasSession titleIsSentinel persist).events.getLast? =
        some (Event.text ("Error: " ++ m)) := by
  have hev : (streamTurn gen srcs hasSession titleIsSentinel persist).events =
      (runGeneration gen).1 ++ [Event.text ("Error: " ++ m)] := by
    unfold streamTurn
    rw [hexc]
  refine ⟨hev, runGeneration_events_text gen, ?_, ?_⟩
  · rw [hev]
    rw [List.length_append, List.length_singleton]
    omega
  · rw [hev, List.getLast?_append]
    rfl

/-- Witness for the amended C2 at the stream [delta "hi", raised "boom"]: one
valid text event, then the single terminal error event. -/
theorem C2_stream_termination_witness :
    (streamTurn [GenStep.delta "hi", GenStep.raised "boom"] [] true true
      PersistOutcome.completed).events =
      [Event.text "hi", Event.text "Error: boom"] := by
  have h := (C2_stream_termination [GenStep.delta "hi", GenStep.raised "boom"] [] true true
    PersistOutcome.completed "boom" rfl).1
  rw [h]
  rfl

/-- C10: whenever the generation stream raised (so the turn's event stream
ends with the terminal error event), no assistant message is persisted and
the session title is not updated, regardless of session, sentinel state or
what the persistence block would have done. -/
theorem C10_no_persist_on_error (gen : List GenStep) (srcs : List SourceRecord)
    (hasSession titleIsSentinel : Bool) (persist : PersistOutcome) (m : String)
    (hexc : (runGeneration gen).2 = some m) :
    (streamTurn gen srcs hasSession titleIsSentinel persist).events.getLast? =
      some (Event.text ("Error: " ++ m))
    ∧ (streamTurn gen srcs hasSession titleIsSentinel persist).assistantSaved = false
    ∧ (streamTurn gen srcs hasSession titleIsSentinel persist).titleUpdated = false := by
  refine ⟨?_, ?_, ?_⟩
  · unfold streamTurn
    rw [hexc]
    rw [List.getLast?_append]
    rfl
  · unfold streamTurn
    rw [hexc]
  · unfold streamTurn
    rw [hexc]

/-- Witness for C10: a turn with an open session, sentinel title and a
persistence block that would have completed still saves nothing when the
backend raised. -/
theorem C10_no_persist_on_error_witness :
    (streamTurn [GenStep.delta "partial", GenStep.raised "timeout"]
      [SourceRecord.doc "a.pdf".toList none] true true
      PersistOutcome.completed).assistantSaved = false ∧
    (streamTurn [GenStep.delta "partial", GenStep.raised "timeout"]
      [SourceRecord.doc "a.pdf".toList none] true true
      PersistOutcome.completed).titleUpdated = false := by
  have h := C10_no_persist_on_error [GenStep.delta "partial", GenStep.raised "timeout"]
    [SourceRecord.doc "a.pdf".toList none] true true PersistOutcome.completed "timeout" rfl
  exact ⟨h.2.1, h.2.2⟩

/-- One persisted message of a session as read by get_chat_history; the
database rows are modelled in ascending created_at order (insertion order). -/
structure DBMessage where
  role : String
  content : String
deriving DecidableEq, Repr

/-- Role translation of chat.py line 87: the stored short tag `ai` becomes the
backend's `assistant` role, other roles pass through. -/
def mapRole (r : String) : String :=
  if r = "ai" then "assistant" else r

/-- get_chat_history (chat.py lines 71-89): order by `-created_at`, take 20,
reverse back to ascending order, translate roles. Each history entry is
modelled as a (role, content) pair. -/
def get_chat_history (msgs : List DBMessage) : List (String × String) :=
  ((msgs.reverse.take 20).reverse).map (fun m => (mapRole m.role, m.content))

/-- The tail-deduplication of chat_stream (chat.py lines 473-476): drop the
last history entry when it is the just-submitted user message. -/
def loadHistory (msgs : List DBMessage) (user_text : String) : List (String × String) :=
  match (get_chat_history msgs).getLast? with
  | some last =>
    if last.1 = "user" ∧ last.2 = user_text then (get_chat_history msgs).dropLast
    else get_chat_history msgs
  | none => get_chat_history msgs

/-- C8: for a session holding N persisted messages, get_chat_history returns
exactly the most recent min(N, 20) of them, in ascending chronological order
(the ascending suffix of the stored list, roles translated), and the final
entry is removed exactly when its role is `user` and its content equals the
just-submitted user text. -/
theorem C8_history_loading (msgs : List DBMessage) (t : String) :
    get_chat_history msgs =
      (msgs.drop (msgs.length - 20)).map (fun m => (mapRole m.role, m.content))
    ∧ (get_chat_history msgs).length = min msgs.length 20
    ∧ ((get_chat_history msgs).getLast? = some ("user", t) →
        loadHistory msgs t = (get_chat_history msgs).dropLast)
    ∧ ((get_chat_history msgs).getLast? ≠ some ("user", t) →
        loadHistory msgs t = get_chat_history msgs) := by
  have hdrop : get_chat_history msgs =
      (msgs.drop (msgs.length - 20)).map (fun m => (mapRole m.role, m.content)) := by
    unfold get_chat_history
    congr 1
    rw [← List.rtake_eq_reverse_take_reverse]
    rfl
  refine ⟨hdrop, ?_, ?_, ?_⟩
  · rw [hdrop, List.length_map, List.length_drop]
    omega
  · intro h
    unfold loadHistory
    rw [h]
    exact if_pos ⟨rfl, rfl⟩
  · intro h
    unfold loadHistory
    cases hl : (get_chat_history msgs).getLast? with
    | none => rfl
    | some p =>
      refine if_neg ?_
      rintro ⟨hc1, hc2⟩
      apply h
      rw [hl, show p = ("user", t) from Prod.ext hc1 hc2]

/-- Witness for C8 on a 22-message session ending in the just-submitted user
message: the loaded history is the most recent 20 entries with that trailing
user message removed. -/
theorem C8_history_loading_witness :
    loadHistory (List.replicate 21 ⟨"ai", "a"⟩ ++ [⟨"user", "hi"⟩]) "hi" =
      (get_chat_history (List.replicate 21 ⟨"ai", "a"⟩ ++ [⟨"user", "hi"⟩])).dropLast := by
  exact (C8_history_loading (List.replicate 21 ⟨"ai", "a"⟩ ++ [⟨"user", "hi"⟩]) "hi").2.2.1
    (by decide)

/-- One persisted message row as read by the /history endpoint, with its
creation timestamp. -/
structure HistRow where
  created_at : ℕ
  role : String
  content : String
deriving DecidableEq, Repr

/-- Boolean created_at comparison used to model `order_by('created_at')`. -/
def histLE (a b : HistRow) : Bool := a.created_at ≤ b.created_at

/-- The `order_by('created_at')` ordering of a session's message rows. -/
def orderedHistory (msgs : List HistRow) : List HistRow :=
  msgs.mergeSort histLE

/-- The ownership check of get_history (chat.py line 499): access is denied
only when the session exists, has an owner, AND the caller is authenticated,
AND the owner differs from the caller. `session` is `none` when no session
row exists, `some owner` otherwise with `owner` the nullable user. -/
def denyAccess (session : Option (Option ℕ)) (caller : Option ℕ) : Bool :=
  match session, caller with
  | some (some owner), some c => owner != c
  | _, _ => false

/-- get_history (chat.py lines 489-516): empty on a malformed session id
(ValidationError caught), empty when the ownership check denies, otherwise
the session's rows ordered by created_at and projected to (role, text). -/
def get_history (idWellFormed : Bool) (session : Option (Option ℕ)) (caller : Option ℕ)
    (msgs : List HistRow) : List (String × String) :=
  if idWellFormed = false then []
  else if denyAccess session caller then []
  else (orderedHistory msgs).map (fun m => (m.role, m.content))

/-- C9 counterexample: a session owned by user 1, queried by an
unauthenticated caller, returns the session's messages — not the empty result
the claim requires for "any permission mismatch (... including an
unauthenticated caller)". -/
theorem C9_counterexample :
    get_history true (some (some 1)) none [⟨0, "user", "hi"⟩] = [("user", "hi")] ∧
    get_history true (some (some 1)) none [⟨0, "user", "hi"⟩] ≠ [] := by
  have h : get_history true (some (some 1)) none [⟨0, "user", "hi"⟩] = [("user", "hi")] := by
    unfold get_history denyAccess orderedHistory
    simp
  exact ⟨h, by rw [h]; simp⟩

/-- C9 (amended): the history fetch is empty when the session identifier is
malformed, and empty when the session exists, is owned, the caller is
authenticated and the owner differs from the caller; in every other case —
including an unauthenticated caller reading an owned session — it returns the
session's messages ordered by creation timestamp. -/
theorem C9_ownership (idWellFormed : Bool) (session : Option (Option ℕ))
    (caller : Option ℕ) (msgs : List HistRow) :
    (idWellFormed = false → get_history idWellFormed session caller msgs = [])
    ∧ (∀ owner c, session = some (some owner) → caller = some c → owner ≠ c →
        get_history idWellFormed session caller msgs = [])
    ∧ (idWellFormed = true → denyAccess session caller = false →
        get_history idWellFormed session caller msgs =
          (orderedHistory msgs).map (fun m => (m.role, m.content))
        ∧ List.Pairwise (fun a b => a.created_at ≤ b.created_at) (orderedHistory msgs)
        ∧ (orderedHistory msgs).Perm msgs) := by
  refine ⟨?_, ?_, ?_⟩
  · intro h
    unfold get_history
    rw [if_pos (by rw [h])]
  · intro owner c hs hc hne
    unfold get_history
    by_cases hw : idWellFormed = false
    · rw [if_pos (by rw [hw])]
    · rw [if_neg hw]
      rw [if_pos (by unfold denyAccess; rw [hs, hc]; simpa using hne)]
  · intro hw hd
    refine ⟨?_, ?_, ?_⟩
    · unfold get_history
      rw [if_neg (by rw [hw]; simp), if_neg (by rw [hd]; simp)]
    · have hs := @List.sorted_mergeSort HistRow histLE
        (fun a b c hab hbc => by
          unfold histLE at hab hbc ⊢
          simp only [decide_eq_true_eq] at hab hbc ⊢
          omega)
        (fun a b => by
          unfold histLE
          simp only [Bool.or_eq_true, decide_eq_true_eq]
          omega)
        msgs
      unfold orderedHistory
      exact hs.imp (fun {a b} hab => by
        unfold histLE at hab
        simpa using hab)
    · unfold orderedHistory
      exact List.mergeSort_perm msgs histLE

/-- Witness for the amended C9: a well-formed id, an owned session and an
authenticated non-owner caller yield the empty result. -/
theorem C9_ownership_witness :
    get_history true (some (some 1)) (some 2) [⟨0, "user", "hi"⟩] = [] := by
  exact (C9_ownership true (some (some 1)) (some 2) [⟨0, "user", "hi"⟩]).2.1
    1 2 rfl rfl (by omega)
